import Mathlib

/-!
Verification development for the Veyra bot verification lifecycle coordinator.

The definitions below are a shallow embedding of the JavaScript sources:

- the webhook callback processor in src/webhook/webhookServer.js
  (createWebhookServer, current variant with retryDeleteIdenfyData);
- the deletion retry loop retryDeleteIdenfyData in the same file;
- handleVerify from the newer commandHandlers variant (the segment stored at
  src/eslint.config.mjs, lines 57-178), which performs the linear scan over
  pending verifications;
- checkDailyLimit from the apiClient module (src/unnamed/part_001);
- PersistentMap.loadFromFile from src/utils/PersistentMap.js.

The in-memory JavaScript Map holding pending verifications is modelled as an
association list with unique keys in insertion order; asynchronous effects
(backend submission, Discord user fetch, direct messages, channel messages)
are modelled by an explicit effect oracle recording which awaited call
succeeds and which one throws.
-/

namespace Veyra

/-- JavaScript truthiness of an optional string field: absent and the empty
string are falsy. -/
def truthyStr : Option String → Bool
  | none => false
  | some s => s ≠ ""

/-- JavaScript truthiness of an optional numeric field: absent and zero are
falsy. -/
def truthyNat : Option Nat → Bool
  | none => false
  | some n => n ≠ 0

/-- Does the character list begin with the pattern list. Helper for the
embedding of the JavaScript String.prototype.includes call used by
retryDeleteIdenfyData to classify deletion errors. -/
def charsStart : List Char → List Char → Bool
  | _, [] => true
  | [], _ :: _ => false
  | c :: cs, p :: ps => c == p && charsStart cs ps

/-- Does the character list contain the pattern list as a contiguous run. -/
def charsHas : List Char → List Char → Bool
  | s, pat =>
    charsStart s pat ||
      match s with
      | [] => false
      | _ :: t => charsHas t pat

/-- Embedding of the JavaScript call s.includes(pat). -/
def strIncludes (s pat : String) : Bool :=
  charsHas s.toList pat.toList

/-- A JavaScript Map, modelled as an association list in insertion order. -/
abbrev VMap (α : Type) := List (String × α)

namespace VMap

/-- Map.prototype.get: the value stored at the key, if any. -/
def get : VMap α → String → Option α
  | [], _ => none
  | (k', v) :: t, k => if k = k' then some v else get t k

/-- Map.prototype.set: replace the value at the key in place, or append a new
entry in insertion order. -/
def set : VMap α → String → α → VMap α
  | [], k, v => [(k, v)]
  | (k', v') :: t, k, v =>
    if k' = k then (k, v) :: t else (k', v') :: set t k v

/-- Map.prototype.delete: remove the entry stored at the key. -/
def del : VMap α → String → VMap α
  | [], _ => []
  | (k', v) :: t, k => if k' = k then del t k else (k', v) :: del t k

/-- Map.prototype.values as used by Array.from(map.values()). -/
def values (m : VMap α) : List α :=
  m.map Prod.snd

end VMap

/-- One pending verification record as stored in the pendingVerifications
map by the command handlers. -/
structure Pending where
  discordId : String
  ckey : String
  userId : String
  username : String
  timestamp : Nat
  type : String
  clientId : Option String
  sessionToken : Option String
deriving DecidableEq

/-- A notification actually delivered through Discord by the webhook
handler. Each constructor corresponds to one send call in
createWebhookServer. -/
inductive Notice
  | successDM (ckey scanRef : String)
  | channelLog (discordId username ckey scanRef : String)
  | errorDM (scanRef ckey : String)
  | failureDM (status description scanRef : String)
  | reviewingDM (scanRef : String)
deriving DecidableEq

/-- The awaited effectful calls the webhook handler performs; the effect
oracle decides which of them succeed and which throw. -/
inductive Eff
  | submitVerification
  | fetchUser
  | sendSuccessDM
  | fetchChannel
  | sendChannelLog
  | sendErrorDM
  | sendFailureDM
  | sendReviewingDM
deriving DecidableEq

/-- Effect oracle: true means the awaited call succeeds, false means it
throws. -/
abbrev Env := Eff → Bool

/-- Outcome of one HTTP callback delivery: the HTTP status sent back, the
pendingVerifications map after the handler ran, the notifications actually
delivered, and the scan references handed to the background deletion
reconciler retryDeleteIdenfyData. -/
structure WebhookResult where
  response : Nat
  ledger : VMap Pending
  notices : List Notice
  deletions : List String
deriving DecidableEq

/-- The failure description built in the DENIED, EXPIRED and SUSPECTED
branch of the webhook handler: the base sentence plus the deny reasons, or
else the suspicion reasons, joined by a comma. -/
def failureDescription (denyReasons suspicionReasons : List String) : String :=
  let base := "Your identity verification was not successful."
  if denyReasons ≠ [] then
    base ++ " Reason(s): " ++ String.intercalate ", " denyReasons
  else if suspicionReasons ≠ [] then
    base ++ " Issue(s): " ++ String.intercalate ", " suspicionReasons
  else base

/-- The catch block of the APPROVED branch: fetch the user again and send the
distinct error notification; if either awaited call throws, the error
propagates to the top-level catch and the endpoint answers 500. State already
mutated before the failure is kept as committed. -/
def approvedCatch (env : Env) (ledger : VMap Pending) (scanRef ckey : String)
    (notices : List Notice) (deletions : List String) : WebhookResult :=
  if env .fetchUser then
    if env .sendErrorDM then
      ⟨200, ledger, notices ++ [Notice.errorDM scanRef ckey], deletions⟩
    else ⟨500, ledger, notices, deletions⟩
  else ⟨500, ledger, notices, deletions⟩

/-- Embedding of the POST /webhook/idenfy handler of createWebhookServer
(current variant of src/webhook/webhookServer.js): look up the record by
scan reference, branch on the overall status, mutate the map, deliver
notifications, and hand terminal scan references to retryDeleteIdenfyData.
channelConfigured models the truthiness of config.VERIFICATION_CHANNEL_ID. -/
def handleDisposition (env : Env) (channelConfigured : Bool)
    (ledger : VMap Pending) (scanRef : String) (overall : Option String)
    (denyReasons suspicionReasons : List String) : WebhookResult :=
  match ledger.get scanRef with
  | none => ⟨200, ledger, [], []⟩
  | some pending =>
    if overall = some "APPROVED" then
      if env .submitVerification then
        let ledger1 := ledger.del scanRef
        if env .fetchUser then
          if env .sendSuccessDM then
            let n1 := [Notice.successDM pending.ckey scanRef]
            if channelConfigured then
              if env .fetchChannel then
                if env .sendChannelLog then
                  ⟨200, ledger1,
                    n1 ++ [Notice.channelLog pending.discordId pending.username
                      pending.ckey scanRef], [scanRef]⟩
                else approvedCatch env ledger1 scanRef pending.ckey n1 [scanRef]
              else approvedCatch env ledger1 scanRef pending.ckey n1 []
            else ⟨200, ledger1, n1, []⟩
          else approvedCatch env ledger1 scanRef pending.ckey [] []
        else approvedCatch env ledger1 scanRef pending.ckey [] []
      else approvedCatch env ledger scanRef pending.ckey [] []
    else if overall = some "DENIED" ∨ overall = some "EXPIRED" ∨
        overall = some "SUSPECTED" then
      let ledger1 := ledger.del scanRef
      if env .fetchUser then
        if env .sendFailureDM then
          ⟨200, ledger1,
            [Notice.failureDM ((overall).getD "")
              (failureDescription denyReasons suspicionReasons) scanRef],
            [scanRef]⟩
        else ⟨500, ledger1, [], []⟩
      else ⟨500, ledger1, [], []⟩
    else if overall = some "REVIEWING" then
      if env .fetchUser then
        if env .sendReviewingDM then
          ⟨200, ledger, [Notice.reviewingDM scanRef], []⟩
        else ⟨500, ledger, [], []⟩
      else ⟨500, ledger, [], []⟩
    else ⟨200, ledger, [], []⟩

/-- Outcome of one deleteIdenfyData attempt as seen by the retry loop:
either the awaited call returns, or it throws an error carrying a message. -/
inductive DelOutcome
  | success
  | fail (msg : String)
deriving DecidableEq

/-- Result of the deletion reconciler: the boolean the function returns, the
number of deletion attempts actually made, and the successive waits (the
initial grace delay followed by each backoff wait). -/
structure RetryResult where
  success : Bool
  attemptsMade : Nat
  waits : List Nat
deriving DecidableEq

/-- The for loop of retryDeleteIdenfyData. The fuel argument counts the
remaining loop iterations, so fuel = maxRetries - attempt throughout; on
success it returns true, on a failure that is not a processing-state error,
or on the last attempt, it returns false immediately, and otherwise it waits
baseDelay times the one-based attempt number and retries. -/
def retryLoop (outcome : Nat → DelOutcome) (maxRetries baseDelay : Nat) :
    Nat → Nat → RetryResult
  | attempt, 0 => ⟨false, attempt, []⟩
  | attempt, fuel + 1 =>
    match outcome attempt with
    | .success => ⟨true, attempt + 1, []⟩
    | .fail msg =>
      if !strIncludes msg "processing state" || attempt = maxRetries - 1 then
        ⟨false, attempt + 1, []⟩
      else
        let r := retryLoop outcome maxRetries baseDelay (attempt + 1) fuel
        ⟨r.success, r.attemptsMade, baseDelay * (attempt + 1) :: r.waits⟩

/-- Embedding of retryDeleteIdenfyData from src/webhook/webhookServer.js:
wait the initial grace delay, then run the retry loop from attempt zero with
the given retry budget. The source defaults are maxRetries = 12,
baseDelay = 10000 and initialDelay = 5000 milliseconds. -/
def retryDeleteIdenfyData (outcome : Nat → DelOutcome)
    (maxRetries baseDelay initialDelay : Nat) : RetryResult :=
  let r := retryLoop outcome maxRetries baseDelay 0 maxRetries
  ⟨r.success, r.attemptsMade, initialDelay :: r.waits⟩

/-- A raw record as read back from the pending_verifications.json snapshot;
every required field may be absent. -/
structure RawVerification where
  discordId : Option String
  ckey : Option String
  timestamp : Option Nat
  type : Option String
deriving DecidableEq

/-- Maximum record age accepted on hydration: 24 hours in milliseconds. -/
def maxAge : Nat := 24 * 60 * 60 * 1000

/-- The validation the loadFromFile loop applies to one entry, in source
order: required fields truthy, age at most 24 hours, recognized type. -/
def validEntry (now : Nat) (v : RawVerification) : Bool :=
  truthyStr v.discordId && truthyStr v.ckey && truthyNat v.timestamp &&
    truthyStr v.type &&
    !(decide (now - v.timestamp.getD 0 > maxAge)) &&
    (v.type == some "idenfy" || v.type == some "manual_approval")

/-- The entry loop of PersistentMap.loadFromFile: walk the parsed object in
order, skip entries failing field validation, entries older than 24 hours
and entries of unknown type, count the skipped ones, and keep the rest in
order. -/
def loadLoop (now : Nat) :
    List (String × RawVerification) → VMap RawVerification × Nat
  | [] => ([], 0)
  | (k, v) :: rest =>
    let r := loadLoop now rest
    if !(truthyStr v.discordId && truthyStr v.ckey && truthyNat v.timestamp &&
        truthyStr v.type) then
      (r.1, r.2 + 1)
    else if now - v.timestamp.getD 0 > maxAge then
      (r.1, r.2 + 1)
    else if !(v.type == some "idenfy" || v.type == some "manual_approval") then
      (r.1, r.2 + 1)
    else ((k, v) :: r.1, r.2)

/-- Embedding of PersistentMap.loadFromFile on an already parsed snapshot:
the hydrated map plus the flag telling whether the cleaned map was saved
back to storage, which the source does exactly when skippedCount > 0. -/
def loadFromFile (now : Nat) (entries : List (String × RawVerification)) :
    VMap RawVerification × Bool :=
  let r := loadLoop now entries
  (r.1, decide (0 < r.2))

/-- The verified_flags object returned by the backend for an existing
verification, as consulted by handleVerify. -/
structure ExistingVerification where
  ckey : String
  vetted : Bool
  scan_ref : Option String
deriving DecidableEq

/-- A provider session returned by createIdenfyVerification. -/
structure IdenfySession where
  scanRef : String
  clientId : String
  sessionToken : String
  verificationUrl : String
deriving DecidableEq

/-- The effect oracle for one run of handleVerify: the backend lookup result
(outer none models the API call throwing, inner none models a 404), the
analytics count (none models the analytics query throwing), the provider
session creation result (none models it throwing), whether the admin channel
fetch and send succeed, the current time and the generated UUID. -/
structure VerifyEnv where
  existing : Option (Option ExistingVerification)
  analytics : Option Nat
  idenfy : Option IdenfySession
  adminChannelOk : Bool
  now : Nat
  freshId : String
deriving DecidableEq

/-- The reply handleVerify sends to the interaction, one constructor per
editReply call site; adminChannelError models the admin channel fetch or
send throwing after the manual-approval record was already stored. -/
inductive VerifyReply
  | statusCheckFailed
  | accessDenied
  | alreadyIdVerified (ckey : String)
  | alreadyPending
  | manualApprovalQueued
  | adminChannelError
  | sessionCreated (url scanRef : String)
  | sessionCreationFailed
deriving DecidableEq

/-- Embedding of checkDailyLimit from the apiClient module: compare the
recent verification count reported by the analytics endpoint against the
configured daily limit, and allow verification when the query fails. -/
def checkDailyLimit (queryResult : Option Nat) (limit : Nat) : Bool :=
  match queryResult with
  | some recent => decide (recent ≥ limit)
  | none => false

/-- Embedding of handleVerify from the newer commandHandlers variant (the
segment stored at src/eslint.config.mjs, lines 57-178): require a vetted
backend record without a scan_ref, refuse when a linear scan over the
pending map finds a record with the same discordId, then either queue a
manual-approval record keyed by a fresh UUID when the daily limit is
exceeded or create a provider session keyed by its scan reference. -/
def handleVerify (limit : Nat) (env : VerifyEnv) (ledger : VMap Pending)
    (discordId ckey username : String) : VerifyReply × VMap Pending :=
  match env.existing with
  | none => (.statusCheckFailed, ledger)
  | some existing =>
    match existing with
    | none => (.accessDenied, ledger)
    | some ex =>
      if !ex.vetted then (.accessDenied, ledger)
      else if truthyStr ex.scan_ref then (.alreadyIdVerified ex.ckey, ledger)
      else
        match (ledger.values).find? (fun v => v.discordId == discordId) with
        | some _ => (.alreadyPending, ledger)
        | none =>
          if checkDailyLimit env.analytics limit then
            let ledger1 := ledger.set env.freshId
              ⟨discordId, ckey, discordId, username, env.now,
                "manual_approval_pending", none, none⟩
            if env.adminChannelOk then (.manualApprovalQueued, ledger1)
            else (.adminChannelError, ledger1)
          else
            match env.idenfy with
            | none => (.sessionCreationFailed, ledger)
            | some s =>
              (.sessionCreated s.verificationUrl s.scanRef,
                ledger.set s.scanRef
                  ⟨discordId, ckey, discordId, username, env.now, "idenfy",
                    some s.clientId, some s.sessionToken⟩)

/-- Number of live records held for one subject: the entries of the pending
map whose discordId is the given subject. -/
def subjectCount (m : VMap Pending) (d : String) : Nat :=
  (m.filter (fun e => e.2.discordId == d)).length

/-- The Ledger uniqueness invariant: at most one live record per subject at
any observed instant. -/
def atMostOnePerSubject (m : VMap Pending) : Prop :=
  ∀ d : String, subjectCount m d ≤ 1

/-- A deletion attempt outcome that the retry loop treats as retryable: a
thrown error whose message contains the processing-state marker. -/
def IsProcessingFail (o : DelOutcome) : Prop :=
  ∃ msg, o = DelOutcome.fail msg ∧ strIncludes msg "processing state" = true

/-- The backoff waits performed by k consecutive retried attempts starting
at the given zero-based attempt index. -/
def waitsFor (base : Nat) : Nat → Nat → List Nat
  | _, 0 => []
  | attempt, k + 1 => base * (attempt + 1) :: waitsFor base (attempt + 1) k

/-- Effect oracle on which every awaited Discord and backend call succeeds. -/
def envAll : Env := fun _ => true

/-- Effect oracle on which the failure DM of the DENIED branch throws while
everything else succeeds. -/
def envFailureDMThrows : Env := fun e =>
  match e with
  | .sendFailureDM => false
  | _ => true

/-- A sample live provider-session record. -/
def pending0 : Pending := ⟨"u1", "ck", "u1", "name", 0, "idenfy", none, none⟩

/-- A sample one-record ledger holding pending0 under scan reference scan1. -/
def ledger0 : VMap Pending := [("scan1", pending0)]

/-- A sample vetted backend record without a scan reference. -/
def exVetted : ExistingVerification := ⟨"ck", true, none⟩

/-- A sample provider session. -/
def sess1 : IdenfySession := ⟨"sr1", "ci", "tok", "url"⟩

/-- A handleVerify effect oracle on which the analytics query throws. -/
def envQueryFail : VerifyEnv := ⟨some (some exVetted), none, some sess1, true, 77, "uuid-1"⟩

/-- A handleVerify effect oracle on which the analytics query returns exactly
the default daily limit of 25. -/
def envAtLimit : VerifyEnv := ⟨some (some exVetted), some 25, some sess1, true, 77, "uuid-1"⟩

/-- Effect oracle on which the backend submission throws while every Discord
call succeeds. -/
def envSubmitFails : Env := fun e =>
  match e with
  | .submitVerification => false
  | _ => true

/-- Deletion oracle of Scenario E, first half: a processing-state failure on
attempts one to eleven and success on attempt twelve. -/
def outcomeStill : Nat → DelOutcome := fun k =>
  if k < 11 then DelOutcome.fail "still in processing state" else DelOutcome.success

/-- Deletion oracle of Scenario E, second half: a processing-state failure on
attempts one and two and an unrelated error on attempt three. -/
def outcomeHard : Nat → DelOutcome := fun k =>
  if k < 2 then DelOutcome.fail "still in processing state"
  else DelOutcome.fail "internal error"

/-! Basic lemmas about the map model. -/

theorem VMap.get_set_self (m : VMap α) (k : String) (v : α) :
    (m.set k v).get k = some v := by
  induction m with
  | nil => simp [VMap.set, VMap.get]
  | cons e t ih =>
    obtain ⟨k', v'⟩ := e
    by_cases h : k' = k
    · simp [VMap.set, VMap.get, h]
    · simp [VMap.set, VMap.get, h, ih, Ne.symm h]

theorem VMap.get_del_self (m : VMap α) (k : String) :
    (m.del k).get k = none := by
  induction m with
  | nil => simp [VMap.del, VMap.get]
  | cons e t ih =>
    obtain ⟨k', v'⟩ := e
    by_cases h : k' = k
    · simp [VMap.del, h, ih]
    · simp [VMap.del, VMap.get, h, ih, Ne.symm h]

theorem filter_set_length_le (m : VMap α) (k : String) (v : α)
    (p : String × α → Bool) :
    ((m.set k v).filter p).length ≤ (m.filter p).length + 1 := by
  induction m with
  | nil =>
    cases hp : p (k, v) <;> simp [VMap.set, List.filter_cons, hp]
  | cons e t ih =>
    obtain ⟨k', v'⟩ := e
    by_cases h : k' = k
    · simp only [VMap.set, if_pos h, List.filter_cons]
      cases hp : p (k, v) <;> cases hp' : p (k', v') <;>
        simp [hp, hp'] <;> omega
    · simp only [VMap.set, if_neg h, List.filter_cons]
      cases hp' : p (k', v') <;> simp [hp'] <;> omega

theorem filter_set_length_le_of_not (m : VMap α) (k : String) (v : α)
    (p : String × α → Bool) (hp : p (k, v) = false) :
    ((m.set k v).filter p).length ≤ (m.filter p).length := by
  induction m with
  | nil => simp [VMap.set, List.filter_cons, hp]
  | cons e t ih =>
    obtain ⟨k', v'⟩ := e
    by_cases h : k' = k
    · simp only [VMap.set, if_pos h, List.filter_cons, hp]
      cases hp' : p (k', v') <;> simp [hp'] <;> omega
    · simp only [VMap.set, if_neg h, List.filter_cons]
      cases hp' : p (k', v') <;> simp [hp'] <;> omega

theorem subjectCount_eq_zero_of_no_subject (m : VMap Pending) (d : String)
    (h : (m.values).find? (fun v => v.discordId == d) = none) :
    subjectCount m d = 0 := by
  rw [subjectCount, List.length_eq_zero, List.filter_eq_nil_iff]
  intro e he
  have := List.find?_eq_none.mp h e.2 (List.mem_map_of_mem Prod.snd he)
  simpa using this

theorem loadLoop_spec (now : Nat) (entries : List (String × RawVerification)) :
    (loadLoop now entries).1 = entries.filter (fun e => validEntry now e.2) ∧
    ((loadLoop now entries).2 = 0 ↔
      ∀ e ∈ entries, validEntry now e.2 = true) := by
  induction entries with
  | nil => simp [loadLoop]
  | cons e rest ih =>
    obtain ⟨k, v⟩ := e
    obtain ⟨ih1, ih2⟩ := ih
    cases hA : (truthyStr v.discordId && truthyStr v.ckey &&
        truthyNat v.timestamp && truthyStr v.type) with
    | false =>
      have hv : validEntry now v = false := by simp [validEntry, hA]
      simp [loadLoop, List.filter_cons, hA, hv, ih1, ih2]
    | true =>
      by_cases hAge : now - v.timestamp.getD 0 > maxAge
      · have hv : validEntry now v = false := by simp [validEntry, hAge]
        simp [loadLoop, List.filter_cons, hA, hAge, hv, ih1, ih2]
      · cases hC : (v.type == some "idenfy" ||
            v.type == some "manual_approval") with
        | false =>
          have hv : validEntry now v = false := by simp [validEntry, hC]
          simp [loadLoop, List.filter_cons, hA, hAge, hC, hv, ih1, ih2]
        | true =>
          have hv : validEntry now v = true := by
            simp [validEntry, hA, hAge, hC]
          simp [loadLoop, List.filter_cons, hA, hAge, hC, hv, ih1, ih2]

/-- C8: Ledger hydration keeps exactly the records that pass validation
(required fields truthy, recognized kind, age at most 24 hours) and drops
the rest, and the cleaned mapping is persisted back exactly when at least
one record was dropped. -/
theorem loadFromFile_keeps_valid_and_repersists (now : Nat)
    (entries : List (String × RawVerification)) :
    (loadFromFile now entries).1 =
      entries.filter (fun e => validEntry now e.2) ∧
    ((loadFromFile now entries).2 = true ↔
      ∃ e ∈ entries, validEntry now e.2 = false) := by
  obtain ⟨h1, h2⟩ := loadLoop_spec now entries
  constructor
  · simpa [loadFromFile] using h1
  · rw [loadFromFile]
    simp only [decide_eq_true_eq]
    rw [Nat.pos_iff_ne_zero, Ne, h2]
    push_neg
    simp [Bool.not_eq_true]

/-- C7: when the backend recent-verification count query fails, the
admission check reports the limit as not exceeded, and a verify command run
under a failing analytics query proceeds to create the provider session
rather than being routed to manual approval. -/
theorem checkDailyLimit_fails_open (limit : Nat) (env : VerifyEnv)
    (ledger : VMap Pending) (discordId ckey username : String)
    (ex : ExistingVerification) (s : IdenfySession)
    (hq : env.analytics = none)
    (hex : env.existing = some (some ex))
    (hv : ex.vetted = true)
    (hsr : truthyStr ex.scan_ref = false)
    (hnp : (ledger.values).find? (fun v => v.discordId == discordId) = none)
    (hid : env.idenfy = some s) :
    checkDailyLimit env.analytics limit = false ∧
    handleVerify limit env ledger discordId ckey username =
      (.sessionCreated s.verificationUrl s.scanRef,
        ledger.set s.scanRef ⟨discordId, ckey, discordId, username, env.now,
          "idenfy", some s.clientId, some s.sessionToken⟩) := by
  constructor
  · rw [hq]; rfl
  · simp [handleVerify, hex, hv, hsr, hnp, hid, hq, checkDailyLimit]

theorem checkDailyLimit_fails_open_witness :
    checkDailyLimit (VerifyEnv.analytics envQueryFail) 25 = false ∧
    handleVerify 25 envQueryFail [] "u1" "ck" "nm" =
      (.sessionCreated "url" "sr1",
        [("sr1", ⟨"u1", "ck", "u1", "nm", 77, "idenfy", some "ci",
          some "tok"⟩)]) :=
  checkDailyLimit_fails_open 25 envQueryFail [] "u1" "ck" "nm" exVetted sess1
    rfl rfl rfl rfl rfl rfl

/-- C10: the admission gate comparison is inclusive, so a count equal to the
configured ceiling already reports the limit as exceeded, and a verify
command run when the count equals the ceiling is routed to the
manual-approval path. -/
theorem checkDailyLimit_inclusive_boundary (limit : Nat) (env : VerifyEnv)
    (ledger : VMap Pending) (discordId ckey username : String)
    (ex : ExistingVerification)
    (hq : env.analytics = some limit)
    (hex : env.existing = some (some ex))
    (hv : ex.vetted = true)
    (hsr : truthyStr ex.scan_ref = false)
    (hnp : (ledger.values).find? (fun v => v.discordId == discordId) = none)
    (hch : env.adminChannelOk = true) :
    (∀ c : Nat, checkDailyLimit (some c) limit = true ↔ limit ≤ c) ∧
    handleVerify limit env ledger discordId ckey username =
      (.manualApprovalQueued,
        ledger.set env.freshId ⟨discordId, ckey, discordId, username, env.now,
          "manual_approval_pending", none, none⟩) := by
  constructor
  · intro c; simp [checkDailyLimit, ge_iff_le]
  · simp [handleVerify, hex, hv, hsr, hnp, hq, hch, checkDailyLimit]

theorem checkDailyLimit_inclusive_boundary_witness :
    (checkDailyLimit (some 25) 25 = true ↔ 25 ≤ 25) ∧
    handleVerify 25 envAtLimit [] "u1" "ck" "nm" =
      (.manualApprovalQueued,
        [("uuid-1", ⟨"u1", "ck", "u1", "nm", 77, "manual_approval_pending",
          none, none⟩)]) :=
  ⟨(checkDailyLimit_inclusive_boundary 25 envAtLimit [] "u1" "ck" "nm"
      exVetted rfl rfl rfl rfl rfl rfl).1 25,
    (checkDailyLimit_inclusive_boundary 25 envAtLimit [] "u1" "ck" "nm"
      exVetted rfl rfl rfl rfl rfl rfl).2⟩

/-- C2 counterexample: a DENIED callback for a live record whose disposition
is classified and whose Ledger deletion is committed still answers 500 when
the failure DM throws, so the endpoint does not respond 200 regardless of
notification failure. -/
theorem handleDisposition_denied_notification_failure_yields_500 :
    handleDisposition envFailureDMThrows true ledger0 "scan1" (some "DENIED")
      [] [] = ⟨500, [], [], []⟩ ∧
    (handleDisposition envFailureDMThrows true ledger0 "scan1" (some "DENIED")
      [] []).response ≠ 200 := by
  decide

/-- C2 amended: the callback endpoint responds 200 once the disposition has
been classified and the Ledger mutation committed, provided every awaited
notification delivery succeeds; a notification failure can surface as 500
even after the mutation was committed. -/
theorem handleDisposition_responds_200_when_notifications_succeed
    (env : Env) (cc : Bool) (ledger : VMap Pending) (scanRef : String)
    (overall : Option String) (denyReasons suspicionReasons : List String)
    (hall : ∀ e, env e = true) :
    (handleDisposition env cc ledger scanRef overall denyReasons
      suspicionReasons).response = 200 := by
  rw [handleDisposition]
  cases VMap.get ledger scanRef with
  | none => rfl
  | some p =>
    simp only [hall, approvedCatch]
    split <;> split <;> (try split) <;> simp_all

theorem handleDisposition_responds_200_witness :
    (handleDisposition envAll true ledger0 "scan1" (some "DENIED")
      ["DOC_INVALID"] []).response = 200 :=
  handleDisposition_responds_200_when_notifications_succeed envAll true
    ledger0 "scan1" (some "DENIED") ["DOC_INVALID"] [] (fun _ => rfl)

/-- C3: an APPROVED callback whose backend submission throws leaves the
record in the Ledger unchanged, emits exactly the distinct error
notification, and schedules no provider-side data deletion. -/
theorem handleDisposition_submit_failure_preserves_record
    (env : Env) (cc : Bool) (ledger : VMap Pending) (scanRef : String)
    (denyReasons suspicionReasons : List String) (p : Pending)
    (hl : ledger.get scanRef = some p)
    (hsub : env .submitVerification = false)
    (hf : env .fetchUser = true)
    (he : env .sendErrorDM = true) :
    handleDisposition env cc ledger scanRef (some "APPROVED") denyReasons
      suspicionReasons = ⟨200, ledger, [Notice.errorDM scanRef p.ckey], []⟩ := by
  simp [handleDisposition, approvedCatch, hl, hsub, hf, he]

theorem handleDisposition_submit_failure_witness :
    handleDisposition envSubmitFails true ledger0 "scan1" (some "APPROVED")
      [] [] = ⟨200, ledger0, [Notice.errorDM "scan1" "ck"], []⟩ :=
  handleDisposition_submit_failure_preserves_record envSubmitFails true
    ledger0 "scan1" [] [] pending0 rfl rfl rfl rfl

/-- C4: evaluation at the failing input. With VERIFICATION_CHANNEL_ID unset,
an APPROVED callback whose submission and notifications all succeed removes
the record and sends the success DM but never schedules the deletion
reconciler for the scan reference, while the identical callback with the
channel configured does schedule it. -/
theorem handleDisposition_approved_skips_deletion_without_channel :
    handleDisposition envAll false ledger0 "scan1" (some "APPROVED") [] [] =
      ⟨200, [], [Notice.successDM "ck" "scan1"], []⟩ ∧
    (handleDisposition envAll true ledger0 "scan1" (some "APPROVED")
      [] []).deletions = ["scan1"] := by
  decide

/-- C5: a DENIED, EXPIRED or SUSPECTED callback for a live record deletes
the record, emits one failure notification whose description carries the
joined deny reason codes, and schedules deletion reconciliation for the
scan reference. -/
theorem handleDisposition_denied_removes_notifies_schedules
    (env : Env) (cc : Bool) (ledger : VMap Pending) (scanRef st d : String)
    (ds suspicionReasons : List String) (p : Pending)
    (hst : st = "DENIED" ∨ st = "EXPIRED" ∨ st = "SUSPECTED")
    (hl : ledger.get scanRef = some p)
    (hf : env .fetchUser = true)
    (hs : env .sendFailureDM = true) :
    handleDisposition env cc ledger scanRef (some st) (d :: ds)
      suspicionReasons =
      ⟨200, ledger.del scanRef,
        [Notice.failureDM st
          ("Your identity verification was not successful. Reason(s): " ++
            String.intercalate ", " (d :: ds)) scanRef],
        [scanRef]⟩ := by
  have hdesc : failureDescription (d :: ds) suspicionReasons =
      "Your identity verification was not successful. Reason(s): " ++
        String.intercalate ", " (d :: ds) := by
    rw [failureDescription]
    simp only [ne_eq, reduceCtorEq, not_false_eq_true, if_true]
    congr 1
  rcases hst with h | h | h <;> subst h <;>
    simp [handleDisposition, hl, hf, hs, hdesc]

theorem handleDisposition_denied_removes_witness :
    handleDisposition envAll true ledger0 "scan1" (some "DENIED")
      ["DOC_INVALID"] [] =
      ⟨200, [],
        [Notice.failureDM "DENIED"
          "Your identity verification was not successful. Reason(s): DOC_INVALID"
          "scan1"],
        ["scan1"]⟩ :=
  handleDisposition_denied_removes_notifies_schedules envAll true ledger0
    "scan1" "DENIED" "DOC_INVALID" [] [] pending0 (Or.inl rfl) rfl rfl rfl

/-- C9: a terminal callback for a scan reference with no record in the
Ledger is acknowledged with 200 and is a no-op on the Ledger and the
notifications, so delivering the same DENIED callback twice leaves the
Ledger exactly as after the first delivery and emits exactly one
notification in total. -/
theorem handleDisposition_duplicate_delivery_noop
    (env : Env) (cc : Bool) (ledger : VMap Pending) (k : String)
    (denyReasons suspicionReasons : List String) (p : Pending)
    (hf : env .fetchUser = true)
    (hs : env .sendFailureDM = true)
    (hl : ledger.get k = some p) :
    (∀ (m : VMap Pending) (ov : Option String) (a b : List String),
      m.get k = none → handleDisposition env cc m k ov a b = ⟨200, m, [], []⟩) ∧
    (handleDisposition env cc
        (handleDisposition env cc ledger k (some "DENIED") denyReasons
          suspicionReasons).ledger
        k (some "DENIED") denyReasons suspicionReasons =
      ⟨200,
        (handleDisposition env cc ledger k (some "DENIED") denyReasons
          suspicionReasons).ledger, [], []⟩) ∧
    (handleDisposition env cc ledger k (some "DENIED") denyReasons
      suspicionReasons).notices.length = 1 := by
  have hnone : ∀ (m : VMap Pending) (ov : Option String) (a b : List String),
      m.get k = none → handleDisposition env cc m k ov a b = ⟨200, m, [], []⟩ := by
    intro m ov a b hm
    rw [handleDisposition, hm]
  have hfirst : handleDisposition env cc ledger k (some "DENIED") denyReasons
      suspicionReasons =
      ⟨200, ledger.del k,
        [Notice.failureDM "DENIED"
          (failureDescription denyReasons suspicionReasons) k], [k]⟩ := by
    simp [handleDisposition, hl, hf, hs]
  refine ⟨hnone, ?_, ?_⟩
  · rw [hfirst]
    exact hnone _ _ _ _ (VMap.get_del_self ledger k)
  · rw [hfirst]
    rfl

theorem handleDisposition_duplicate_delivery_witness :
    (handleDisposition envAll true
      (handleDisposition envAll true ledger0 "scan1" (some "DENIED")
        ["DOC_INVALID"] []).ledger
      "scan1" (some "DENIED") ["DOC_INVALID"] [] =
      ⟨200,
        (handleDisposition envAll true ledger0 "scan1" (some "DENIED")
          ["DOC_INVALID"] []).ledger, [], []⟩) ∧
    (handleDisposition envAll true ledger0 "scan1" (some "DENIED")
      ["DOC_INVALID"] []).notices.length = 1 :=
  ⟨(handleDisposition_duplicate_delivery_noop envAll true ledger0 "scan1"
      ["DOC_INVALID"] [] pending0 rfl rfl rfl).2.1,
    (handleDisposition_duplicate_delivery_noop envAll true ledger0 "scan1"
      ["DOC_INVALID"] [] pending0 rfl rfl rfl).2.2⟩

theorem handleVerify_ledger_cases (limit : Nat) (env : VerifyEnv)
    (ledger : VMap Pending) (discordId ckey username : String) :
    (handleVerify limit env ledger discordId ckey username).2 = ledger ∨
    ((ledger.values).find? (fun v => v.discordId == discordId) = none ∧
      ∃ (k : String) (v : Pending), v.discordId = discordId ∧
        (handleVerify limit env ledger discordId ckey username).2 =
          ledger.set k v) := by
  cases hex : env.existing with
  | none => left; simp [handleVerify, hex]
  | some exOpt =>
    cases exOpt with
    | none => left; simp [handleVerify, hex]
    | some ex =>
      cases hvb : ex.vetted with
      | false => left; simp [handleVerify, hex, hvb]
      | true =>
        cases hsr : truthyStr ex.scan_ref with
        | true => left; simp [handleVerify, hex, hvb, hsr]
        | false =>
          cases hfind : (ledger.values).find?
              (fun v => v.discordId == discordId) with
          | some w => left; simp [handleVerify, hex, hvb, hsr, hfind]
          | none =>
            cases hlim : checkDailyLimit env.analytics limit with
            | true =>
              right
              refine ⟨rfl, env.freshId,
                ⟨discordId, ckey, discordId, username, env.now,
                  "manual_approval_pending", none, none⟩, rfl, ?_⟩
              cases hch : env.adminChannelOk <;>
                simp [handleVerify, hex, hvb, hsr, hfind, hlim, hch]
            | false =>
              cases hid : env.idenfy with
              | none =>
                left; simp [handleVerify, hex, hvb, hsr, hfind, hlim, hid]
              | some s =>
                right
                refine ⟨rfl, s.scanRef,
                  ⟨discordId, ckey, discordId, username, env.now, "idenfy",
                    some s.clientId, some s.sessionToken⟩, rfl, ?_⟩
                simp [handleVerify, hex, hvb, hsr, hfind, hlim, hid]

theorem atMostOnePerSubject_set (ledger : VMap Pending) (k : String)
    (v : Pending) (discordId : String)
    (hinv : atMostOnePerSubject ledger)
    (hvd : v.discordId = discordId)
    (hfind : (ledger.values).find? (fun v => v.discordId == discordId) = none) :
    atMostOnePerSubject (ledger.set k v) := by
  intro d
  by_cases hd : discordId = d
  · subst hd
    have h0 : subjectCount ledger discordId = 0 :=
      subjectCount_eq_zero_of_no_subject ledger discordId hfind
    have hle := filter_set_length_le ledger k v
      (fun e => e.2.discordId == discordId)
    simp only [subjectCount] at h0 ⊢
    omega
  · have hfalse : ((fun (e : String × Pending) => e.2.discordId == d)
        (k, v)) = false := by
      simp [hvd]
      exact hd
    have hle := filter_set_length_le_of_not ledger k v
      (fun e => e.2.discordId == d) hfalse
    have h1 := hinv d
    simp only [subjectCount] at h1 ⊢
    omega

/-- C1: handleVerify preserves the at-most-one-live-record-per-subject
invariant; when the linear scan over the pending map finds a record whose
discordId matches the requester, the map is left unchanged, and, when the
preceding backend checks pass, the command is refused as already pending. -/
theorem handleVerify_at_most_one_per_subject (limit : Nat) (env : VerifyEnv)
    (ledger : VMap Pending) (discordId ckey username : String)
    (hinv : atMostOnePerSubject ledger) :
    atMostOnePerSubject
      (handleVerify limit env ledger discordId ckey username).2 ∧
    ((∃ e ∈ ledger, e.2.discordId = discordId) →
      (handleVerify limit env ledger discordId ckey username).2 = ledger) ∧
    (∀ ex : ExistingVerification, env.existing = some (some ex) →
      ex.vetted = true → truthyStr ex.scan_ref = false →
      (∃ e ∈ ledger, e.2.discordId = discordId) →
      (handleVerify limit env ledger discordId ckey username).1 =
        VerifyReply.alreadyPending) := by
  have hfs : ∀ (e : String × Pending), e ∈ ledger →
      e.2.discordId = discordId →
      (ledger.values).find? (fun v => v.discordId == discordId) ≠ none := by
    intro e he hed hn
    have := List.find?_eq_none.mp hn e.2 (List.mem_map_of_mem Prod.snd he)
    simp [hed] at this
  refine ⟨?_, ?_, ?_⟩
  · rcases handleVerify_ledger_cases limit env ledger discordId ckey username
      with h | ⟨hfind, k, v, hvd, heq⟩
    · rw [h]; exact hinv
    · rw [heq]
      exact atMostOnePerSubject_set ledger k v discordId hinv hvd hfind
  · rintro ⟨e, he, hed⟩
    rcases handleVerify_ledger_cases limit env ledger discordId ckey username
      with h | ⟨hfind, _, _, _, _⟩
    · exact h
    · exact absurd hfind (hfs e he hed)
  · rintro ex hex hvb hsr ⟨e, he, hed⟩
    cases hfind : (ledger.values).find?
        (fun v => v.discordId == discordId) with
    | none => exact absurd hfind (hfs e he hed)
    | some w => simp [handleVerify, hex, hvb, hsr, hfind]

theorem handleVerify_at_most_one_witness :
    atMostOnePerSubject
      (handleVerify 25 envQueryFail ledger0 "u1" "ck" "nm").2 ∧
    (handleVerify 25 envQueryFail ledger0 "u1" "ck" "nm").2 = ledger0 ∧
    (handleVerify 25 envQueryFail ledger0 "u1" "ck" "nm").1 =
      VerifyReply.alreadyPending := by
  have h := handleVerify_at_most_one_per_subject 25 envQueryFail ledger0
    "u1" "ck" "nm"
    (fun d => le_trans (List.length_filter_le _ _) (le_refl 1))
  exact ⟨h.1, h.2.1 ⟨("scan1", pending0), by simp [ledger0], rfl⟩,
    h.2.2 exVetted rfl rfl rfl ⟨("scan1", pending0), by simp [ledger0], rfl⟩⟩

theorem retryLoop_attempts_le (outcome : Nat → DelOutcome) (maxR base : Nat) :
    ∀ (fuel attempt : Nat),
      (retryLoop outcome maxR base attempt fuel).attemptsMade ≤
        attempt + fuel := by
  intro fuel
  induction fuel with
  | zero => intro attempt; simp [retryLoop]
  | succ f ih =>
    intro attempt
    rw [retryLoop]
    cases ho : outcome attempt with
    | success => simp
    | fail msg =>
      cases hc : (!strIncludes msg "processing state" ||
          decide (attempt = maxR - 1)) with
      | true =>
        simp only [hc, if_true]
        show attempt + 1 ≤ attempt + (f + 1)
        omega
      | false =>
        simp only [hc, Bool.false_eq_true, if_false]
        show (retryLoop outcome maxR base (attempt + 1) f).attemptsMade ≤
          attempt + (f + 1)
        have := ih (attempt + 1)
        omega

theorem waitsFor_eq_map (base : Nat) : ∀ (k a : Nat),
    waitsFor base a k = (List.range k).map (fun i => base * (a + i + 1)) := by
  intro k
  induction k with
  | zero => intro a; rfl
  | succ k ih =>
    intro a
    rw [waitsFor, List.range_succ_eq_map, List.map_cons, List.map_map]
    have hfun : ((fun i => base * (a + i + 1)) ∘ (fun i => i + 1)) =
        (fun i => base * (a + 1 + i + 1)) := by
      funext i
      simp only [Function.comp]
      exact congrArg (base * ·) (by omega)
    rw [hfun, ih (a + 1)]

theorem retryLoop_success_eq (outcome : Nat → DelOutcome) (maxR base : Nat) :
    ∀ (k attempt fuel : Nat), k < fuel → attempt + fuel = maxR →
      (∀ j, j < k → IsProcessingFail (outcome (attempt + j))) →
      outcome (attempt + k) = DelOutcome.success →
      retryLoop outcome maxR base attempt fuel =
        ⟨true, attempt + k + 1, waitsFor base attempt k⟩ := by
  intro k
  induction k with
  | zero =>
    intro attempt fuel hk hfuel hproc hsucc
    obtain ⟨f, rfl⟩ : ∃ f, fuel = f + 1 := ⟨fuel - 1, by omega⟩
    rw [Nat.add_zero] at hsucc
    rw [retryLoop, hsucc]
    rfl
  | succ k ih =>
    intro attempt fuel hk hfuel hproc hsucc
    obtain ⟨f, rfl⟩ : ∃ f, fuel = f + 1 := ⟨fuel - 1, by omega⟩
    obtain ⟨msg, hm, hinc⟩ := hproc 0 (by omega)
    rw [Nat.add_zero] at hm
    have hne : ¬(attempt = maxR - 1) := by omega
    have hcond : (!strIncludes msg "processing state" ||
        decide (attempt = maxR - 1)) = false := by
      rw [hinc]
      simp [hne]
    rw [retryLoop, hm]
    simp only [hcond, Bool.false_eq_true, if_false]
    have hrec := ih (attempt + 1) f (by omega) (by omega)
      (fun j hj => by
        have := hproc (j + 1) (by omega)
        rwa [show attempt + (j + 1) = attempt + 1 + j by omega] at this)
      (by rwa [show attempt + 1 + k = attempt + (k + 1) by omega])
    rw [hrec]
    rw [show attempt + 1 + k + 1 = attempt + (k + 1) + 1 by omega]
    rfl

theorem retryLoop_hardfail_eq (outcome : Nat → DelOutcome) (maxR base : Nat) :
    ∀ (k attempt fuel : Nat) (msg : String), k < fuel →
      attempt + fuel = maxR →
      (∀ j, j < k → IsProcessingFail (outcome (attempt + j))) →
      outcome (attempt + k) = DelOutcome.fail msg →
      strIncludes msg "processing state" = false →
      retryLoop outcome maxR base attempt fuel =
        ⟨false, attempt + k + 1, waitsFor base attempt k⟩ := by
  intro k
  induction k with
  | zero =>
    intro attempt fuel msg hk hfuel hproc hfail hnot
    obtain ⟨f, rfl⟩ : ∃ f, fuel = f + 1 := ⟨fuel - 1, by omega⟩
    rw [Nat.add_zero] at hfail
    have hcond : (!strIncludes msg "processing state" ||
        decide (attempt = maxR - 1)) = true := by
      rw [hnot]
      simp
    rw [retryLoop, hfail]
    simp only [hcond, if_true]
    rfl
  | succ k ih =>
    intro attempt fuel msg hk hfuel hproc hfail hnot
    obtain ⟨f, rfl⟩ : ∃ f, fuel = f + 1 := ⟨fuel - 1, by omega⟩
    obtain ⟨msg0, hm, hinc⟩ := hproc 0 (by omega)
    rw [Nat.add_zero] at hm
    have hne : ¬(attempt = maxR - 1) := by omega
    have hcond : (!strIncludes msg0 "processing state" ||
        decide (attempt = maxR - 1)) = false := by
      rw [hinc]
      simp [hne]
    rw [retryLoop, hm]
    simp only [hcond, Bool.false_eq_true, if_false]
    have hrec := ih (attempt + 1) f msg (by omega) (by omega)
      (fun j hj => by
        have := hproc (j + 1) (by omega)
        rwa [show attempt + (j + 1) = attempt + 1 + j by omega] at this)
      (by rwa [show attempt + 1 + k = attempt + (k + 1) by omega]) hnot
    rw [hrec]
    rw [show attempt + 1 + k + 1 = attempt + (k + 1) + 1 by omega]
    rfl

theorem retryLoop_exhaust_eq (outcome : Nat → DelOutcome) (maxR base : Nat) :
    ∀ (fuel attempt : Nat), 0 < fuel → attempt + fuel = maxR →
      (∀ j, j < fuel → IsProcessingFail (outcome (attempt + j))) →
      retryLoop outcome maxR base attempt fuel =
        ⟨false, maxR, waitsFor base attempt (fuel - 1)⟩ := by
  intro fuel
  induction fuel with
  | zero => intro attempt h0; omega
  | succ f ih =>
    intro attempt h0 hfuel hproc
    obtain ⟨msg, hm, hinc⟩ := hproc 0 (by omega)
    rw [Nat.add_zero] at hm
    cases f with
    | zero =>
      have heq : attempt = maxR - 1 := by omega
      have hcond : (!strIncludes msg "processing state" ||
          decide (attempt = maxR - 1)) = true := by
        rw [hinc]
        simp [heq]
      rw [retryLoop, hm]
      simp only [hcond, if_true]
      rw [show attempt + 1 = maxR by omega]
      rfl
    | succ f' =>
      have hne : ¬(attempt = maxR - 1) := by omega
      have hcond : (!strIncludes msg "processing state" ||
          decide (attempt = maxR - 1)) = false := by
        rw [hinc]
        simp [hne]
      rw [retryLoop, hm]
      simp only [hcond, Bool.false_eq_true, if_false]
      have hrec := ih (attempt + 1) (by omega) (by omega)
        (fun j hj => by
          have := hproc (j + 1) (by omega)
          rwa [show attempt + (j + 1) = attempt + 1 + j by omega] at this)
      rw [hrec]
      rfl

/-- C6: the deletion reconciler waits the grace delay first, makes at most
12 attempts, retries a processing-state failure after a wait of n times
baseDelay following failed attempt n, succeeds on any attempt up to the
12th, terminates immediately on any other failure, and reports permanent
failure after 12 processing-state failures. -/
theorem retryDeleteIdenfyData_spec (outcome : Nat → DelOutcome)
    (base init : Nat) :
    (retryDeleteIdenfyData outcome 12 base init).attemptsMade ≤ 12 ∧
    (∀ k, k < 12 → (∀ j, j < k → IsProcessingFail (outcome j)) →
      outcome k = DelOutcome.success →
      retryDeleteIdenfyData outcome 12 base init =
        ⟨true, k + 1, init :: (List.range k).map (fun i => base * (i + 1))⟩) ∧
    (∀ k msg, k < 12 → (∀ j, j < k → IsProcessingFail (outcome j)) →
      outcome k = DelOutcome.fail msg →
      strIncludes msg "processing state" = false →
      retryDeleteIdenfyData outcome 12 base init =
        ⟨false, k + 1, init :: (List.range k).map (fun i => base * (i + 1))⟩) ∧
    ((∀ j, j < 12 → IsProcessingFail (outcome j)) →
      retryDeleteIdenfyData outcome 12 base init =
        ⟨false, 12, init :: (List.range 11).map (fun i => base * (i + 1))⟩) := by
  have hmap : ∀ k, waitsFor base 0 k =
      (List.range k).map (fun i => base * (i + 1)) := by
    intro k
    rw [waitsFor_eq_map base k 0]
    simp
  refine ⟨?_, ?_, ?_, ?_⟩
  · have := retryLoop_attempts_le outcome 12 base 12 0
    simp only [retryDeleteIdenfyData]
    omega
  · intro k hk hproc hsucc
    have := retryLoop_success_eq outcome 12 base k 0 12 hk (by omega)
      (fun j hj => by simpa using hproc j hj) (by simpa using hsucc)
    simp only [retryDeleteIdenfyData, this, hmap]
    rw [show 0 + k + 1 = k + 1 by omega]
  · intro k msg hk hproc hfail hnot
    have := retryLoop_hardfail_eq outcome 12 base k 0 12 msg hk (by omega)
      (fun j hj => by simpa using hproc j hj) (by simpa using hfail) hnot
    simp only [retryDeleteIdenfyData, this, hmap]
    rw [show 0 + k + 1 = k + 1 by omega]
  · intro hproc
    have := retryLoop_exhaust_eq outcome 12 base 12 0 (by omega) (by omega)
      (fun j hj => by simpa using hproc j hj)
    simp only [retryDeleteIdenfyData, this, hmap]

theorem retryDeleteIdenfyData_spec_witness :
    retryDeleteIdenfyData outcomeStill 12 10000 5000 =
      ⟨true, 12, 5000 :: (List.range 11).map (fun i => 10000 * (i + 1))⟩ ∧
    retryDeleteIdenfyData outcomeHard 12 10000 5000 =
      ⟨false, 3, 5000 :: (List.range 2).map (fun i => 10000 * (i + 1))⟩ := by
  constructor
  · exact (retryDeleteIdenfyData_spec outcomeStill 10000 5000).2.1 11
      (by decide)
      (fun j hj => ⟨"still in processing state", by simp [outcomeStill, hj],
        by decide⟩)
      (by simp [outcomeStill])
  · exact (retryDeleteIdenfyData_spec outcomeHard 10000 5000).2.2.1 2
      "internal error" (by decide)
      (fun j hj => ⟨"still in processing state", by simp [outcomeHard, hj],
        by decide⟩)
      (by simp [outcomeHard]) (by decide)

end Veyra
